import Mathlib

/-!
Verification of the psy_consult_agent stage/session orchestration engine and
memory synchronization layer, shallowly embedded from the Python sources.

The embedding covers:
* the CBT stage loop of src/controllers/consultation_controller.py
  (handler node, completion-evaluation step, completion-check node);
* topic score initialization and reinforcement updates;
* the memory initializer's incremental sync and rebuild import passes
  (app/data_access/memory/initializer.py);
* medical-record creation (app/business_logic/agents/supervisor_agent.py);
* the structured oracle call invoke_json (src/utils/llm_service.py);
* skill-memory retrieval (src/memory/enhanced_memory_manager.py and
  src/memory/long_term_store.py);
* the bag-of-words cosine similarity (src/memory/memory_manager.py).
-/

namespace PsyConsult

/-! ## CBT stage machine (consultation_controller.py) -/

/-- Per-stage configuration, from cbt_config.json as read by the controller:
completion_criteria.required_elements, completion_criteria.completion_threshold
(source default: length of required_elements), and max_dialogues (source
default: 5). -/
structure StageConfig where
  required_elements : List String
  completion_threshold : Nat
  max_dialogues : Nat
deriving DecidableEq

/-- The per-stage slice of the session state:
cbt_stage_dialogues[stage], cbt_stage_completions[stage], and the
is_<stage>_complete flag (absent keys read as false). -/
structure StageState where
  dialogues : Nat
  completions : List String
  complete : Bool
deriving DecidableEq

/-- Fresh per-stage state as set up by _initialize_cbt_topics /
_initialize_state: zero dialogues, no completed elements, flag unset. -/
def initialStageState : StageState := ⟨0, [], false⟩

/-- The accumulation loop of _evaluate_stage_completion: each judged element
not already recorded is appended to cbt_stage_completions[stage]. -/
def accumulateCompletions (acc : List String) (judged : List String) : List String :=
  judged.foldl (fun a e => if e ∈ a then a else a ++ [e]) acc

/-- _evaluate_stage_completion (consultation_controller.py lines 858-922):
union the judged completed elements into the accumulated list; if the
accumulated list covers at least the number of required elements (and that
number is positive), set cbt_stage_dialogues[stage] to 1 and the
is_<stage>_complete flag to true. -/
def evaluateStageCompletion (cfg : StageConfig) (judged : List String)
    (s : StageState) : StageState :=
  let comps := accumulateCompletions s.completions judged
  if cfg.required_elements.length ≤ comps.length ∧ 0 < cfg.required_elements.length then
    { s with completions := comps, dialogues := 1, complete := true }
  else
    { s with completions := comps }

/-- One execution of a stage's handler node _handle_cbt_stage (lines 520-597):
run the completion evaluation (a no-op when its internal try/except caught an
oracle failure, modelled by evalOk = false), then increment the stage's
dialogue counter by one. -/
def handleCbtStage (cfg : StageConfig) (judged : List String) (evalOk : Bool)
    (s : StageState) : StageState :=
  let s1 := if evalOk then evaluateStageCompletion cfg judged s else s
  { s1 with dialogues := s1.dialogues + 1 }

/-- The completion-check node _check_cbt_stage_complete (lines 926-997):
if the dialogue counter has reached max_dialogues, force the flag true;
otherwise the flag becomes true exactly when the accumulated completed
elements reach completion_threshold, and false otherwise. -/
def checkCbtStageComplete (cfg : StageConfig) (s : StageState) : StageState :=
  if cfg.max_dialogues ≤ s.dialogues then
    { s with complete := true }
  else if cfg.completion_threshold ≤ s.completions.length then
    { s with complete := true }
  else
    { s with complete := false }

/-- Input of one loop iteration: the evaluator's judged completed elements and
whether the evaluation step ran (its try/except did not swallow an error). -/
structure TurnInput where
  judged : List String
  evalOk : Bool
deriving DecidableEq

/-- The sequence of states observed while the stage loop runs: the conditional
edge loops back to the handler node while is_<stage>_complete is false, so
each iteration contributes the state after the handler node and the state
after the check node. -/
def stageTrace (cfg : StageConfig) : StageState → List TurnInput → List StageState
  | _, [] => []
  | s, t :: rest =>
    if s.complete then []
    else
      handleCbtStage cfg t.judged t.evalOk s ::
      checkCbtStageComplete cfg (handleCbtStage cfg t.judged t.evalOk s) ::
      stageTrace cfg (checkCbtStageComplete cfg (handleCbtStage cfg t.judged t.evalOk s)) rest

/-- Stage configuration of the spec's worked example: required elements
A, B, C, threshold 3, max_dialogues 5. -/
def cfgABC : StageConfig := ⟨["A", "B", "C"], 3, 5⟩

/-- Evaluator reports one new element per turn. -/
def inputsOnePerTurn : List TurnInput :=
  [⟨["A"], true⟩, ⟨["B"], true⟩, ⟨["C"], true⟩, ⟨[], true⟩, ⟨[], true⟩]

/-- Evaluator reports only element A on every turn. -/
def inputsOnlyA : List TurnInput :=
  [⟨["A"], true⟩, ⟨["A"], true⟩, ⟨["A"], true⟩, ⟨["A"], true⟩, ⟨["A"], true⟩]

/-- A stage configuration whose completion_threshold (2) exceeds the number of
required elements (1); the threshold is freely configurable in cbt_config.json
and the check node compares against it as given. -/
def cfgThresholdTwo : StageConfig := ⟨["A"], 2, 5⟩

/-- Trace from a complete state is empty: the conditional edge leaves the
stage loop once is_<stage>_complete is true, so no further stage node runs. -/
theorem stageTrace_nil_of_complete (cfg : StageConfig) (inputs : List TurnInput)
    (s : StageState) (h : s.complete = true) : stageTrace cfg s inputs = [] := by
  cases inputs <;> simp [stageTrace, h]

/-- If the handler node turned the flag on (it was off before), the evaluation
step fired, so the accumulated completions cover all required elements. -/
theorem handle_completions_ge (cfg : StageConfig) (judged : List String) (evalOk : Bool)
    (s : StageState) (hs : s.complete = false)
    (h1 : (handleCbtStage cfg judged evalOk s).complete = true) :
    cfg.required_elements.length ≤ (handleCbtStage cfg judged evalOk s).completions.length := by
  simp only [handleCbtStage, evaluateStageCompletion] at h1 ⊢
  cases evalOk with
  | false => simp [hs] at h1
  | true =>
    by_cases hcond : cfg.required_elements.length ≤
        (accumulateCompletions s.completions judged).length ∧ 0 < cfg.required_elements.length
    · simp only [if_pos rfl, if_pos hcond]
      exact hcond.1
    · simp only [if_pos rfl, if_neg hcond] at h1
      simp [hs] at h1

/-- The check node keeps (or sets) the flag when the accumulated completions
reach the threshold. -/
theorem check_keeps_complete (cfg : StageConfig) (s : StageState)
    (hlen : cfg.completion_threshold ≤ s.completions.length) :
    (checkCbtStageComplete cfg s).complete = true := by
  unfold checkCbtStageComplete
  split <;> simp_all

/-- C1: after the completion-check node runs, is_<stage>_complete is true iff
the stage's dialogue counter has reached max_dialogues or the accumulated
completed elements have reached completion_threshold; with required elements
A, B, C, threshold 3 and max_dialogues 5, one new element per turn flips the
stage complete at turn 3, and only one element ever forces completion at
turn 5. -/
theorem stage_check_complete_iff :
    (∀ (cfg : StageConfig) (s : StageState),
      ((checkCbtStageComplete cfg s).complete = true) ↔
        (cfg.max_dialogues ≤ s.dialogues
          ∨ cfg.completion_threshold ≤ s.completions.length))
    ∧ (stageTrace cfgABC initialStageState inputsOnePerTurn).map StageState.complete
        = [false, false, false, false, true, true]
    ∧ (stageTrace cfgABC initialStageState inputsOnlyA).map StageState.complete
        = [false, false, false, false, false, false, false, false, false, true] := by
  refine ⟨fun cfg s => ?_, by decide, by decide⟩
  unfold checkCbtStageComplete
  split
  · simp_all
  · split <;> simp_all

/-- C2 counterexample: an iteration in which the evaluator's judged elements
bring the accumulated completions to cover all required elements sets the
dialogue counter to 1 before the increment, so a stage state with counter 3
ends the iteration with counter 2, not 4. -/
theorem stage_dialogues_reset_counterexample :
    StageState.dialogues ⟨3, ["A", "B"], false⟩ = 3
    ∧ (handleCbtStage cfgABC ["C"] true ⟨3, ["A", "B"], false⟩).dialogues = 2 := by
  decide

/-- C2 amended: one stage-loop iteration increments the stage's dialogue
counter by exactly 1, except when the completion evaluation runs and the
accumulated completed elements come to cover all (more than zero) required
elements, in which case the counter is reset to 1 by the evaluation and ends
the iteration at 2. -/
theorem handle_stage_dialogues_increment (cfg : StageConfig) (judged : List String)
    (evalOk : Bool) (s : StageState) :
    (handleCbtStage cfg judged evalOk s).dialogues =
      if evalOk = true
          ∧ cfg.required_elements.length ≤ (accumulateCompletions s.completions judged).length
          ∧ 0 < cfg.required_elements.length
      then 2
      else s.dialogues + 1 := by
  simp only [handleCbtStage, evaluateStageCompletion]
  cases evalOk with
  | false => simp
  | true =>
    by_cases hcond : cfg.required_elements.length ≤
        (accumulateCompletions s.completions judged).length ∧ 0 < cfg.required_elements.length
    · simp [hcond]
    · simp [hcond]

/-- C3 counterexample: with one required element and completion_threshold
configured as 2, the evaluation step sets is_<stage>_complete true (all
required elements covered) and the very next completion-check node resets it
to false (accumulated completions below the threshold), so the flag is
observed true and later false in the same session. -/
theorem complete_flag_reset_counterexample :
    (stageTrace cfgThresholdTwo initialStageState [⟨["A"], true⟩]).map StageState.complete
      = [true, false] := by
  decide

/-- C3 amended: provided completion_threshold does not exceed the number of
required elements (as with the source default, threshold =
len(required_elements)), once is_<stage>_complete is observed true, no later
step of the stage loop observes it false. -/
theorem complete_flag_monotone (cfg : StageConfig) (inputs : List TurnInput) (s : StageState)
    (hthr : cfg.completion_threshold ≤ cfg.required_elements.length)
    (hs : s.complete = false) :
    (stageTrace cfg s inputs).Pairwise (fun a b => a.complete = true → b.complete = true) := by
  induction inputs generalizing s with
  | nil => simp [stageTrace]
  | cons t rest ih =>
    rw [stageTrace, if_neg (by simp [hs])]
    by_cases hs2 : (checkCbtStageComplete cfg (handleCbtStage cfg t.judged t.evalOk s)).complete
      = true
    · rw [stageTrace_nil_of_complete cfg rest _ hs2]
      refine List.Pairwise.cons ?_ (List.Pairwise.cons (by simp) List.Pairwise.nil)
      intro y hy h1
      simp only [List.mem_singleton] at hy
      subst hy
      exact hs2
    · have hs2' : (checkCbtStageComplete cfg (handleCbtStage cfg t.judged t.evalOk s)).complete
        = false := by
        simpa using hs2
      refine List.Pairwise.cons ?_ (List.Pairwise.cons ?_ (ih _ hs2'))
      · intro y hy h1
        have hlen := handle_completions_ge cfg t.judged t.evalOk s hs h1
        have hkeep := check_keeps_complete cfg (handleCbtStage cfg t.judged t.evalOk s)
          (le_trans hthr hlen)
        exact absurd hkeep hs2
      · intro y hy h2
        exact absurd h2 hs2

/-- C3 amended witness: the monotonicity theorem applied to the worked
example configuration (threshold 3 = number of required elements) and the
only-element-A input sequence. -/
theorem complete_flag_monotone_witness :
    cfgABC.completion_threshold ≤ cfgABC.required_elements.length
    ∧ (stageTrace cfgABC initialStageState inputsOnlyA).Pairwise
        (fun a b => a.complete = true → b.complete = true) :=
  ⟨by decide, complete_flag_monotone cfgABC inputsOnlyA initialStageState (by decide) rfl⟩

/-! ## Topic scores (reinforcement-learning updates, consultation_controller.py) -/

/-- The reinforcement_learning section of cbt_config.json:
initial_topic_score (source default 5) and the reward_system table mapping a
relevance label to a signed delta. -/
structure RLConfig where
  initial_topic_score : Int
  reward_system : List (String × Int)
deriving DecidableEq

/-- reward_system.get(relevance, 0): the delta for a judged relevance label,
defaulting to 0 for labels outside the table. -/
def rewardOf (cfg : RLConfig) (relevance : String) : Int :=
  match cfg.reward_system.find? (fun p => p.1 = relevance) with
  | some p => p.2
  | none => 0

/-- Python dict read d.get(k): first binding of k in the insertion-ordered
association list. -/
def dictGet (m : List (String × Int)) (k : String) : Option Int :=
  match m with
  | [] => none
  | p :: rest => if p.1 = k then some p.2 else dictGet rest k

/-- Python dict write d[k] = v: overwrite the binding when the key is
present, otherwise append a new binding at the end. -/
def dictSet (m : List (String × Int)) (k : String) (v : Int) : List (String × Int) :=
  if (dictGet m k).isSome then
    m.map (fun p => if p.1 = k then (k, v) else p)
  else
    m ++ [(k, v)]

/-- First-time branch of _initialize_cbt_topics (lines 487-492): the topic
score table starts as the single binding of the core topic to the configured
initial score. -/
def initializeTopicScores (cfg : RLConfig) (coreTopic : String) : List (String × Int) :=
  [(coreTopic, cfg.initial_topic_score)]

/-- _update_topic_scores (lines 834-856): add the reward delta for the judged
relevance label to the current topic's score (dict .get default 5), then, if
the oracle proposed a nonempty new topic not already present, append it at
the configured initial score. -/
def updateTopicScores (cfg : RLConfig) (m : List (String × Int))
    (currentTopic relevance newTopic : String) : List (String × Int) :=
  let m1 := dictSet m currentTopic ((dictGet m currentTopic).getD 5 + rewardOf cfg relevance)
  if newTopic ≠ "" ∧ (dictGet m1 newTopic).isNone then
    m1 ++ [(newTopic, cfg.initial_topic_score)]
  else
    m1

/-- _select_best_topic (lines 599-608): the first topic of maximal score in
iteration order (Python max over dict items), or the core topic (default
string) when the table is empty. -/
def selectBestTopic (m : List (String × Int)) (coreTopic : Option String) : String :=
  match m with
  | [] => coreTopic.getD "情绪困扰"
  | p :: rest => (rest.foldl (fun best q => if best.2 < q.2 then q else best) p).1

/-- Rewriting a single key through the dict-overwrite map: the written key
reads back the new value (when previously present), other keys are
untouched. -/
theorem dictGet_overwrite (m : List (String × Int)) (k t : String) (v : Int) :
    dictGet (m.map (fun p => if p.1 = k then (k, v) else p)) t
      = if t = k then (dictGet m t).map (fun _ => v) else dictGet m t := by
  induction m with
  | nil => simp [dictGet]
  | cons p rest ih =>
    by_cases hpk : p.1 = k
    · by_cases htk : t = k
      · subst htk
        simp [dictGet, hpk, ih]
      · have hkt : ¬ k = t := fun h => htk h.symm
        simp [dictGet, hpk, htk, hkt, ih]
    · by_cases hpt : p.1 = t
      · have htk : ¬ t = k := fun h => hpk (hpt.trans h)
        simp [dictGet, hpk, hpt, htk]
      · simp [dictGet, hpk, hpt, ih]

/-- Reading an appended association list is left-biased. -/
theorem dictGet_append (m l : List (String × Int)) (t : String) :
    dictGet (m ++ l) t = ((dictGet m t).rec (dictGet l t) (fun v => some v)) := by
  induction m with
  | nil => simp [dictGet]
  | cons p rest ih =>
    by_cases hpt : p.1 = t <;> simp [dictGet, hpt, ih]

/-- The fold of _select_best_topic stays within the scanned items. -/
theorem selectFold_mem (p : String × Int) (l : List (String × Int)) :
    l.foldl (fun best q => if best.2 < q.2 then q else best) p ∈ p :: l := by
  induction l generalizing p with
  | nil => simp
  | cons q rest ih =>
    have h := ih (if p.2 < q.2 then q else p)
    simp only [List.foldl_cons]
    rcases List.mem_cons.mp h with h1 | h1
    · rw [h1]
      by_cases hpq : p.2 < q.2
      · rw [if_pos hpq]
        exact List.mem_cons.mpr (Or.inr (List.mem_cons_self q rest))
      · rw [if_neg hpq]
        exact List.mem_cons_self p (q :: rest)
    · exact List.mem_cons.mpr (Or.inr (List.mem_cons.mpr (Or.inr h1)))

/-- A key of a present binding reads back some value. -/
theorem dictGet_isSome_of_mem (m : List (String × Int)) (p : String × Int)
    (h : p ∈ m) : (dictGet m p.1).isSome = true := by
  induction m with
  | nil => simp at h
  | cons q rest ih =>
    by_cases hq : q.1 = p.1
    · simp [dictGet, hq]
    · rcases List.mem_cons.mp h with h1 | h1
      · exact absurd (h1 ▸ rfl) hq
      · simp [dictGet, hq, ih h1]

/-- Keys already bound survive an append unchanged. -/
theorem dictGet_append_left (m l : List (String × Int)) (t : String)
    (h : (dictGet m t).isSome = true) : dictGet (m ++ l) t = dictGet m t := by
  induction m with
  | nil => simp [dictGet] at h
  | cons p rest ih =>
    by_cases hpt : p.1 = t
    · simp [dictGet, hpt]
    · simp only [dictGet, if_neg hpt] at h ⊢
      exact ih h

/-- Keys unbound on the left read from the appended tail. -/
theorem dictGet_append_right (m l : List (String × Int)) (t : String)
    (h : dictGet m t = none) : dictGet (m ++ l) t = dictGet l t := by
  induction m with
  | nil => simp
  | cons p rest ih =>
    by_cases hpt : p.1 = t
    · simp [dictGet, hpt] at h
    · simp only [dictGet, if_neg hpt] at h ⊢
      exact ih h

/-- C4: the topic score table is created with the core topic at the configured
initial score; an update step adds the reward-table delta of the judged
relevance label to the current topic's entry and leaves every other existing
entry unchanged; any entry that first appears during an update is the
proposed new topic and carries exactly the configured initial score; and the
current topic handed to the update (the argmax choice) is always a key that
is already present, so no entry is ever overwritten wholesale. -/
theorem topic_scores_invariant (cfg : RLConfig) (m : List (String × Int))
    (currentTopic relevance newTopic : String)
    (hcur : (dictGet m currentTopic).isSome = true) :
    (∀ core, dictGet (initializeTopicScores cfg core) core = some cfg.initial_topic_score)
    ∧ (∀ t v, dictGet m t = some v →
        dictGet (updateTopicScores cfg m currentTopic relevance newTopic) t
          = some (v + if t = currentTopic then rewardOf cfg relevance else 0))
    ∧ (∀ t, dictGet m t = none →
        (dictGet (updateTopicScores cfg m currentTopic relevance newTopic) t).isSome = true →
        t = newTopic ∧
          dictGet (updateTopicScores cfg m currentTopic relevance newTopic) t
            = some cfg.initial_topic_score)
    ∧ (∀ (m' : List (String × Int)) (core : Option String), m' ≠ [] →
        (dictGet m' (selectBestTopic m' core)).isSome = true) := by
  have hm1 : ∀ t' : String,
      dictGet (dictSet m currentTopic
        ((dictGet m currentTopic).getD 5 + rewardOf cfg relevance)) t'
        = if t' = currentTopic
          then (dictGet m t').map
            (fun _ => (dictGet m currentTopic).getD 5 + rewardOf cfg relevance)
          else dictGet m t' := by
    intro t'
    unfold dictSet
    rw [if_pos hcur]
    exact dictGet_overwrite m currentTopic t' _
  refine ⟨?_, ?_, ?_, ?_⟩
  · intro core
    simp [initializeTopicScores, dictGet]
  · intro t v htv
    have hval : dictGet (dictSet m currentTopic
        ((dictGet m currentTopic).getD 5 + rewardOf cfg relevance)) t
        = some (v + if t = currentTopic then rewardOf cfg relevance else 0) := by
      rw [hm1 t]
      by_cases htc : t = currentTopic
      · have htv' : dictGet m currentTopic = some v := htc ▸ htv
        rw [if_pos htc, htv]
        simp [htv', htc]
      · rw [if_neg htc, htv]
        simp [htc]
    simp only [updateTopicScores]
    split
    · rw [dictGet_append_left _ _ _ (by rw [hval]; rfl)]
      exact hval
    · exact hval
  · intro t htn hsome
    have hnone : dictGet (dictSet m currentTopic
        ((dictGet m currentTopic).getD 5 + rewardOf cfg relevance)) t = none := by
      rw [hm1 t]
      by_cases htc : t = currentTopic
      · rw [if_pos htc, htn]
        rfl
      · rw [if_neg htc]
        exact htn
    simp only [updateTopicScores] at hsome ⊢
    split at hsome
    · rename_i hconda
      rw [if_pos hconda]
      by_cases hnt : newTopic = t
      · subst hnt
        refine ⟨rfl, ?_⟩
        rw [dictGet_append_right _ _ _ hnone]
        simp [dictGet]
      · rw [dictGet_append_right _ _ _ hnone] at hsome
        have hz : dictGet [(newTopic, cfg.initial_topic_score)] t = none := by
          simp [dictGet, hnt]
        rw [hz] at hsome
        simp at hsome
    · rw [hnone] at hsome
      simp at hsome
  · intro m' core hne
    cases m' with
    | nil => exact absurd rfl hne
    | cons p rest =>
      simp only [selectBestTopic]
      exact dictGet_isSome_of_mem (p :: rest) _ (selectFold_mem p rest)

/-- A small concrete reward configuration used for the witness. -/
def rlEx : RLConfig := ⟨5, [("relevant", 2), ("slightly_relevant", 0), ("irrelevant", -1)]⟩

/-- C4 witness: with a table holding topic a at 5, a relevant reply about a
moves a to 7 by the additive delta 2, and the newly discovered topic b enters
at the configured initial score 5. -/
theorem topic_scores_invariant_witness :
    (dictGet [("a", 5)] "a").isSome = true
    ∧ dictGet [("a", 5)] "a" = some 5
    ∧ dictGet (updateTopicScores rlEx [("a", 5)] "a" "relevant" "b") "a" = some 7
    ∧ dictGet (updateTopicScores rlEx [("a", 5)] "a" "relevant" "b") "b" = some 5 := by
  refine ⟨by decide, by decide, ?_, ?_⟩
  · have h := (topic_scores_invariant rlEx [("a", 5)] "a" "relevant" "b"
      (by decide)).2.1 "a" 5 (by decide)
    exact h.trans (by decide)
  · have h := (topic_scores_invariant rlEx [("a", 5)] "a" "relevant" "b"
      (by decide)).2.2.1 "b" (by decide) (by decide)
    exact h.2.trans (by decide)

/-! ## Memory synchronization (app/data_access/memory/initializer.py) -/

/-- A primary-store document as seen by the reconciliation pass: only its id
matters (doc.get("id"); the empty string models a missing/falsy id). -/
structure SyncDoc where
  id : String
deriving DecidableEq

/-- _sync_collection (initializer.py lines 123-171): with the secondary
store's ids snapshotted up front, walk the primary documents in order and
insert each document whose (truthy) id is absent from the snapshot. The whole
loop sits in one try/except, so the first failing insert ends the collection;
the return value is the list of documents actually inserted. -/
def syncCollectionInserts (fail : SyncDoc → Bool) (vecIds : List String) :
    List SyncDoc → List SyncDoc
  | [] => []
  | d :: rest =>
    if d.id = "" then syncCollectionInserts fail vecIds rest
    else if d.id ∈ vecIds then syncCollectionInserts fail vecIds rest
    else if fail d then []
    else d :: syncCollectionInserts fail vecIds rest

/-- The failure-free insert oracle: every add_document call succeeds. -/
def noFail : SyncDoc → Bool := fun _ => false

/-- _import_collection (initializer.py lines 342-394): the rebuild pass adds
every formatted document, with a per-document try/except, so a failing
insert is skipped and the loop continues; the return value is the list of
documents actually inserted. -/
def importCollectionInserts (fail : SyncDoc → Bool) : List SyncDoc → List SyncDoc
  | [] => []
  | d :: rest =>
    if fail d then importCollectionInserts fail rest
    else d :: importCollectionInserts fail rest

/-- One named collection of the reconciliation pass: the primary documents
and the ids already present in the secondary store. -/
structure CollectionPair where
  jsonDocs : List SyncDoc
  vecIds : List String
deriving DecidableEq

/-- _sync_json_and_vector_db (initializer.py lines 102-121): run
_sync_collection over every collection in turn; _sync_collection swallows
its own exceptions, so every collection is processed. -/
def syncPassInserts (fail : SyncDoc → Bool) (colls : List CollectionPair) :
    List (List SyncDoc) :=
  colls.map (fun c => syncCollectionInserts fail c.vecIds c.jsonDocs)

/-- After a failure-free sync, every truthy primary id is either already in
the secondary snapshot or among the ids just inserted. -/
theorem sync_covers (vecIds : List String) (docs : List SyncDoc) (d : SyncDoc)
    (hd : d ∈ docs) (hid : d.id ≠ "") :
    d.id ∈ vecIds ∨ d.id ∈ (syncCollectionInserts noFail vecIds docs).map SyncDoc.id := by
  induction docs with
  | nil => simp at hd
  | cons e rest ih =>
    rcases List.mem_cons.mp hd with h1 | h1
    · subst h1
      by_cases hin : d.id ∈ vecIds
      · exact Or.inl hin
      · right
        rw [syncCollectionInserts, if_neg hid, if_neg hin]
        simp [noFail]
    · rw [syncCollectionInserts]
      by_cases he : e.id = ""
      · rw [if_pos he]
        exact ih h1
      · rw [if_neg he]
        by_cases hein : e.id ∈ vecIds
        · rw [if_pos hein]
          exact ih h1
        · rw [if_neg hein]
          rcases ih h1 with h2 | h2
          · exact Or.inl h2
          · right
            simp only [noFail, if_neg (Bool.false_ne_true), List.map_cons]
            exact List.mem_cons.mpr (Or.inr h2)

/-- When every truthy primary id is already present in the secondary store,
the sync inserts nothing (for any insert-failure behaviour: the failing
branch is never reached). -/
theorem sync_nothing_missing (fail : SyncDoc → Bool) (vecIds : List String)
    (docs : List SyncDoc) (hcov : ∀ d ∈ docs, d.id ≠ "" → d.id ∈ vecIds) :
    syncCollectionInserts fail vecIds docs = [] := by
  induction docs with
  | nil => rfl
  | cons e rest ih =>
    rw [syncCollectionInserts]
    by_cases he : e.id = ""
    · rw [if_pos he]
      exact ih (fun d hd => hcov d (List.mem_cons.mpr (Or.inr hd)))
    · rw [if_neg he, if_pos (hcov e (List.mem_cons_self e rest) he)]
      exact ih (fun d hd => hcov d (List.mem_cons.mpr (Or.inr hd)))

/-- Documents inserted by the sync always had a truthy id absent from the
secondary snapshot, whatever the insert-failure behaviour. -/
theorem sync_insert_only_missing (fail : SyncDoc → Bool) (vecIds : List String)
    (docs : List SyncDoc) (d : SyncDoc)
    (hd : d ∈ syncCollectionInserts fail vecIds docs) :
    d.id ∉ vecIds ∧ d.id ≠ "" := by
  induction docs with
  | nil => simp [syncCollectionInserts] at hd
  | cons e rest ih =>
    rw [syncCollectionInserts] at hd
    by_cases he : e.id = ""
    · rw [if_pos he] at hd
      exact ih hd
    · rw [if_neg he] at hd
      by_cases hein : e.id ∈ vecIds
      · rw [if_pos hein] at hd
        exact ih hd
      · rw [if_neg hein] at hd
        by_cases hf : fail e = true
        · rw [if_pos hf] at hd
          simp at hd
        · rw [if_neg hf] at hd
          rcases List.mem_cons.mp hd with h1 | h1
          · subst h1
            exact ⟨hein, he⟩
          · exact ih h1

/-- C5: the startup sync inserts a document into the secondary store only
when its id is absent from the ids already present there, and re-running the
sync right after a failure-free run, with no intervening writes, inserts
zero additional documents: every truthy primary id is then already covered. -/
theorem sync_idempotent (vecIds : List String) (docs : List SyncDoc) :
    (∀ (fail : SyncDoc → Bool) (d : SyncDoc),
        d ∈ syncCollectionInserts fail vecIds docs → d.id ∉ vecIds)
    ∧ syncCollectionInserts noFail
        (vecIds ++ (syncCollectionInserts noFail vecIds docs).map SyncDoc.id) docs = [] := by
  refine ⟨fun fail d hd => (sync_insert_only_missing fail vecIds docs d hd).1, ?_⟩
  apply sync_nothing_missing
  intro d hd hid
  rcases sync_covers vecIds docs d hd hid with h | h
  · exact List.mem_append.mpr (Or.inl h)
  · exact List.mem_append.mpr (Or.inr h)

/-- C5 witness: primary holds the single document s1, secondary holds only
the unrelated id x; the first run inserts s1 and the second run inserts
nothing. -/
theorem sync_idempotent_witness :
    (⟨"s1"⟩ : SyncDoc).id ∉ (["x"] : List String)
    ∧ syncCollectionInserts noFail
        (["x"] ++ (syncCollectionInserts noFail ["x"] [⟨"s1"⟩]).map SyncDoc.id)
        [⟨"s1"⟩] = [] :=
  ⟨(sync_idempotent ["x"] [⟨"s1"⟩]).1 noFail ⟨"s1"⟩ (by decide),
   (sync_idempotent ["x"] [⟨"s1"⟩]).2⟩

/-- An insert oracle that fails exactly on the document with id d1. -/
def failD1 : SyncDoc → Bool := fun d => d.id == "d1"

/-- C6 counterexample: during an incremental sync over documents d1 then d2,
a failure inserting d1 is caught by the collection-level try/except and the
loop never reaches d2, so nothing is inserted even though d2 does not fail
and its id is missing from the secondary store — the pass does not continue
with the remaining documents of the same collection. -/
theorem sync_collection_abort_counterexample :
    failD1 ⟨"d2"⟩ = false
    ∧ syncCollectionInserts failD1 [] [⟨"d1"⟩, ⟨"d2"⟩] = [] := by
  decide

/-- C6 amended: during the rebuild pass (_import_collection) a per-document
insert failure is logged and skipped and the remaining documents are still
inserted (the inserts are exactly the non-failing documents); during the
incremental sync pass a document failure ends only its own collection, and
the pass still processes every other collection exactly as it would have
without the failure. -/
theorem per_document_failure_handling (fail : SyncDoc → Bool) (docs : List SyncDoc)
    (c : CollectionPair) (pre post : List CollectionPair) :
    importCollectionInserts fail docs = docs.filter (fun d => !(fail d))
    ∧ syncPassInserts fail (pre ++ c :: post)
        = syncPassInserts fail pre
          ++ syncCollectionInserts fail c.vecIds c.jsonDocs :: syncPassInserts fail post := by
  constructor
  · induction docs with
    | nil => rfl
    | cons d rest ih =>
      by_cases hf : fail d = true <;> simp [importCollectionInserts, hf, ih]
  · simp [syncPassInserts]

/-! ## Medical record creation (app/business_logic/agents/supervisor_agent.py) -/

/-- One scale's structured result; only final_score is read by the record
creation. -/
structure ScaleResult where
  final_score : Int
deriving DecidableEq

/-- The slice of the created medical record relevant here. -/
structure MedicalRecord where
  studentId : String
  status : String
  therapyType : String
  totalImprovementScore : Int
deriving DecidableEq

/-- The two accumulation loops of create_student_medical_record
(supervisor_agent.py lines 277-282): total of final_score over a scale-result
map's values. -/
def scaleTotalScore (results : List (String × ScaleResult)) : Int :=
  results.foldl (fun acc p => acc + p.2.final_score) 0

/-- create_student_medical_record (lines 221-303), restricted to the fields
derived from the scale results: totalImprovementScore is the pre-session
total minus the post-session total (line 284). -/
def createStudentMedicalRecord (studentId therapyType : String)
    (initialScales afterScales : List (String × ScaleResult)) : MedicalRecord :=
  { studentId := studentId
    status := "active"
    therapyType := therapyType
    totalImprovementScore := scaleTotalScore initialScales - scaleTotalScore afterScales }

/-- The running-total loop computes the sum of the final scores. -/
theorem scaleTotalScore_eq_sum (results : List (String × ScaleResult)) :
    scaleTotalScore results = (results.map (fun p => p.2.final_score)).sum := by
  have aux : ∀ (l : List (String × ScaleResult)) (a : Int),
      l.foldl (fun acc p => acc + p.2.final_score) a
        = a + (l.map (fun p => p.2.final_score)).sum := by
    intro l
    induction l with
    | nil => simp
    | cons p rest ih =>
      intro a
      simp [ih, add_assoc]
  unfold scaleTotalScore
  simp [aux]

/-- C7: the created medical record's totalImprovementScore is the sum of the
pre-session final scores minus the sum of the post-session final scores;
pre-session totals of 20 against post-session totals of 12 yield 8. -/
theorem medical_record_improvement_score (studentId therapyType : String)
    (pre post : List (String × ScaleResult)) :
    (createStudentMedicalRecord studentId therapyType pre post).totalImprovementScore
      = (pre.map (fun p => p.2.final_score)).sum
        - (post.map (fun p => p.2.final_score)).sum
    ∧ (createStudentMedicalRecord "s" "cbt"
        [("scaleA", ⟨12⟩), ("scaleB", ⟨8⟩)]
        [("scaleA", ⟨7⟩), ("scaleB", ⟨5⟩)]).totalImprovementScore = 8 := by
  constructor
  · simp [createStudentMedicalRecord, scaleTotalScore_eq_sum]
  · decide

/-! ## Structured oracle call invoke_json (src/utils/llm_service.py) -/

/-- A flat JSON object, rich enough to distinguish a supplied default from
the built-in error object. -/
abbrev JsonObj := List (String × String)

/-- Outcome of the model call plus brace extraction and json.loads, as seen
by invoke_json's exception handlers: a successfully parsed object, a
json.JSONDecodeError, or any other exception raised while invoking the
model. -/
inductive LLMOutcome where
  | parsed (j : JsonObj)
  | parseFailure (msg : String)
  | invokeFailure (msg : String)
deriving DecidableEq

/-- invoke_json (llm_service.py lines 61-89): a parsed response is returned;
on json.JSONDecodeError the supplied default is returned if present,
otherwise a dict with an "error" key is returned; on any other exception the
default is returned if present, otherwise the exception propagates. -/
def invoke_json (outcome : LLMOutcome) (defaultValue : Option JsonObj) :
    Except String JsonObj :=
  match outcome with
  | .parsed j => .ok j
  | .parseFailure msg =>
    match defaultValue with
    | some d => .ok d
    | none => .ok [("error", "JSON解析失败: " ++ msg)]
  | .invokeFailure msg =>
    match defaultValue with
    | some d => .ok d
    | none => .error msg

/-- C8 counterexample: with no default supplied and a response that cannot
be parsed as JSON, invoke_json returns normally with an error-keyed dict —
it does not fail with an exception. -/
theorem invoke_json_no_default_counterexample :
    invoke_json (LLMOutcome.parseFailure "Expecting value") none
      = Except.ok [("error", "JSON解析失败: Expecting value")]
    ∧ (invoke_json (LLMOutcome.parseFailure "Expecting value") none).isOk = true :=
  ⟨rfl, rfl⟩

/-- C8 amended: invoke_json returns the supplied default on a JSON parse
failure (and also on any other invocation failure); with no default, a parse
failure returns a dict with an "error" key instead of raising, and only a
non-parse invocation failure propagates as an exception. -/
theorem invoke_json_fallbacks (d : JsonObj) (msg : String) :
    invoke_json (LLMOutcome.parseFailure msg) (some d) = Except.ok d
    ∧ invoke_json (LLMOutcome.invokeFailure msg) (some d) = Except.ok d
    ∧ invoke_json (LLMOutcome.parseFailure msg) none
        = Except.ok [("error", "JSON解析失败: " ++ msg)]
    ∧ invoke_json (LLMOutcome.invokeFailure msg) none = Except.error msg :=
  ⟨rfl, rfl, rfl, rfl⟩

/-! ## Skill memory retrieval (src/memory/enhanced_memory_manager.py and
src/memory/long_term_store.py) -/

/-- A secondary-store document of a skill collection. -/
structure SkillDoc where
  id : String
deriving DecidableEq

/-- search_documents (long_term_store.py lines 218-284): without a query
vector, return the first limit documents of the collection in store order
(collection.get); with a query vector, return the top limit documents of the
vector database's similarity ranking (collection.query with
n_results = limit), the ranking itself being supplied by the external store. -/
def search_documents (rank : List SkillDoc → List Int → List SkillDoc)
    (store : List SkillDoc) (queryVector : Option (List Int)) (lim : Nat) :
    List SkillDoc :=
  match queryVector with
  | none => store.take lim
  | some v => (rank store v).take lim

/-- get_skill_memory (enhanced_memory_manager.py lines 129-177): with a
truthy query text whose embedding succeeds, run the similarity search with
the caller's limit; in every other case (no query text, empty query text, or
embedding failure) fetch documents with query_vector None and the hard-coded
limit 100. -/
def get_skill_memory (rank : List SkillDoc → List Int → List SkillDoc)
    (store : List SkillDoc) (queryText : Option String)
    (embedding : Option (List Int)) (lim : Nat) : List SkillDoc :=
  match queryText with
  | some q =>
    if q ≠ "" then
      match embedding with
      | some v => search_documents rank store (some v) lim
      | none => search_documents rank store none 100
    else search_documents rank store none 100
  | none => search_documents rank store none 100

/-- A store of six documents, more than the default limit of five. -/
def storeSix : List SkillDoc := [⟨"1"⟩, ⟨"2"⟩, ⟨"3"⟩, ⟨"4"⟩, ⟨"5"⟩, ⟨"6"⟩]

/-- C9 counterexample: with no query text and limit 5 over a collection of
six documents, get_skill_memory returns all six documents — the no-query
branch passes the hard-coded limit 100 to the store, not the caller's
limit. -/
theorem get_skill_memory_limit_counterexample :
    (get_skill_memory (fun s _ => s) storeSix none none 5).length = 6
    ∧ ¬ (get_skill_memory (fun s _ => s) storeSix none none 5).length ≤ 5 := by
  decide

/-- C9 amended: with a nonempty query text and a successful embedding,
get_skill_memory returns the top entries of the store's similarity ranking,
at most limit of them; with no query text, an empty query text, or a failed
embedding, it returns the first 100 documents of the collection in store
order, ignoring the limit argument. -/
theorem get_skill_memory_branches (rank : List SkillDoc → List Int → List SkillDoc)
    (store : List SkillDoc) (q : String) (v : List Int) (emb : Option (List Int))
    (lim : Nat) (hq : q ≠ "") :
    get_skill_memory rank store (some q) (some v) lim = (rank store v).take lim
    ∧ (get_skill_memory rank store (some q) (some v) lim).length ≤ lim
    ∧ get_skill_memory rank store none emb lim = store.take 100
    ∧ get_skill_memory rank store (some q) none lim = store.take 100
    ∧ get_skill_memory rank store (some "") emb lim = store.take 100 := by
  refine ⟨?_, ?_, rfl, ?_, rfl⟩
  · simp [get_skill_memory, search_documents, hq]
  · simp [get_skill_memory, search_documents, hq]
  · simp [get_skill_memory, search_documents, hq]

/-- C9 amended witness: the branch theorem at a concrete nonempty query over
the six-document store. -/
theorem get_skill_memory_branches_witness :
    get_skill_memory (fun s _ => s) storeSix (some "query") (some [1]) 5
      = storeSix.take 5
    ∧ (get_skill_memory (fun s _ => s) storeSix (some "query") (some [1]) 5).length ≤ 5 :=
  ⟨(get_skill_memory_branches (fun s _ => s) storeSix "query" [1] none 5 (by decide)).1,
   (get_skill_memory_branches (fun s _ => s) storeSix "query" [1] none 5 (by decide)).2.1⟩

/-! ## Bag-of-words cosine similarity (src/memory/memory_manager.py) -/

/-- Python str.split() with no arguments: split on whitespace runs and drop
empty pieces. -/
def pySplit (text : String) : List String :=
  (text.split (fun c => c.isWhitespace)).filter (fun w => w ≠ "")

/-- The vocabulary of _calculate_text_similarity: the set of words occurring
in either text. -/
def vocabularyOf (ws1 ws2 : List String) : Finset String :=
  ws1.toFinset ∪ ws2.toFinset

/-- Dot product of the two bag-of-words count vectors over a vocabulary. -/
noncomputable def bowDotOver (vocab : Finset String) (ws1 ws2 : List String) : ℝ :=
  ∑ w in vocab, (ws1.count w : ℝ) * (ws2.count w : ℝ)

/-- Euclidean norm of a bag-of-words count vector over a vocabulary
(sum of squares, then ** 0.5). -/
noncomputable def bowMagOver (vocab : Finset String) (ws : List String) : ℝ :=
  Real.sqrt (∑ w in vocab, (ws.count w : ℝ) ^ 2)

/-- _calculate_text_similarity (memory_manager.py lines 230-260): 0.0 when
either text is falsy; otherwise cosine similarity of the word-count vectors
over the shared vocabulary, with 0.0 when either vector has zero norm. -/
noncomputable def calculate_text_similarity (text1 text2 : String) : ℝ :=
  if text1 = "" ∨ text2 = "" then 0
  else
    let words1 := pySplit text1
    let words2 := pySplit text2
    let vocab := vocabularyOf words1 words2
    if bowMagOver vocab words1 = 0 ∨ bowMagOver vocab words2 = 0 then 0
    else bowDotOver vocab words1 words2 / (bowMagOver vocab words1 * bowMagOver vocab words2)

/-- C10: the bag-of-words cosine similarity is symmetric, lies in [0, 1],
and is exactly 0 whenever either argument is the empty string or the two
texts share no words. -/
theorem text_similarity_properties (a b : String) :
    calculate_text_similarity a b = calculate_text_similarity b a
    ∧ 0 ≤ calculate_text_similarity a b
    ∧ calculate_text_similarity a b ≤ 1
    ∧ ((a = "" ∨ b = "" ∨ ∀ w ∈ pySplit a, w ∉ pySplit b) →
        calculate_text_similarity a b = 0) := by
  simp only [calculate_text_similarity]
  refine ⟨?_, ?_, ?_, ?_⟩
  · by_cases h : a = "" ∨ b = ""
    · rw [if_pos h, if_pos (Or.symm h)]
    · rw [if_neg h, if_neg (fun hc => h (Or.symm hc))]
      have hv : vocabularyOf (pySplit b) (pySplit a) = vocabularyOf (pySplit a) (pySplit b) :=
        Finset.union_comm _ _
      rw [hv]
      have hdot : bowDotOver (vocabularyOf (pySplit a) (pySplit b)) (pySplit b) (pySplit a)
          = bowDotOver (vocabularyOf (pySplit a) (pySplit b)) (pySplit a) (pySplit b) :=
        Finset.sum_congr rfl (fun w _ => mul_comm _ _)
      rw [hdot]
      by_cases hm : bowMagOver (vocabularyOf (pySplit a) (pySplit b)) (pySplit a) = 0
        ∨ bowMagOver (vocabularyOf (pySplit a) (pySplit b)) (pySplit b) = 0
      · rw [if_pos hm, if_pos (Or.symm hm)]
      · rw [if_neg hm, if_neg (fun hc => hm (Or.symm hc)), mul_comm]
  · by_cases h : a = "" ∨ b = ""
    · rw [if_pos h]
    · rw [if_neg h]
      by_cases hm : bowMagOver (vocabularyOf (pySplit a) (pySplit b)) (pySplit a) = 0
        ∨ bowMagOver (vocabularyOf (pySplit a) (pySplit b)) (pySplit b) = 0
      · rw [if_pos hm]
      · rw [if_neg hm]
        apply div_nonneg
        · exact Finset.sum_nonneg fun w _ => mul_nonneg (Nat.cast_nonneg _) (Nat.cast_nonneg _)
        · exact mul_nonneg (Real.sqrt_nonneg _) (Real.sqrt_nonneg _)
  · by_cases h : a = "" ∨ b = ""
    · rw [if_pos h]
      exact zero_le_one
    · rw [if_neg h]
      by_cases hm : bowMagOver (vocabularyOf (pySplit a) (pySplit b)) (pySplit a) = 0
        ∨ bowMagOver (vocabularyOf (pySplit a) (pySplit b)) (pySplit b) = 0
      · rw [if_pos hm]
        exact zero_le_one
      · rw [if_neg hm]
        push_neg at hm
        have hpos1 : 0 < bowMagOver (vocabularyOf (pySplit a) (pySplit b)) (pySplit a) :=
          lt_of_le_of_ne (Real.sqrt_nonneg _) (Ne.symm hm.1)
        have hpos2 : 0 < bowMagOver (vocabularyOf (pySplit a) (pySplit b)) (pySplit b) :=
          lt_of_le_of_ne (Real.sqrt_nonneg _) (Ne.symm hm.2)
        rw [div_le_one (mul_pos hpos1 hpos2)]
        exact Real.sum_mul_le_sqrt_mul_sqrt _ _ _
  · intro hz
    rcases hz with hz | hz | hz
    · rw [if_pos (Or.inl hz)]
    · rw [if_pos (Or.inr hz)]
    · by_cases h : a = "" ∨ b = ""
      · rw [if_pos h]
      · rw [if_neg h]
        have hdot0 : bowDotOver (vocabularyOf (pySplit a) (pySplit b))
            (pySplit a) (pySplit b) = 0 := by
          apply Finset.sum_eq_zero
          intro w _
          by_cases hw : w ∈ pySplit a
          · have : (pySplit b).count w = 0 := List.count_eq_zero.mpr (hz w hw)
            simp [this]
          · have : (pySplit a).count w = 0 := List.count_eq_zero.mpr hw
            simp [this]
        by_cases hm : bowMagOver (vocabularyOf (pySplit a) (pySplit b)) (pySplit a) = 0
          ∨ bowMagOver (vocabularyOf (pySplit a) (pySplit b)) (pySplit b) = 0
        · rw [if_pos hm]
        · rw [if_neg hm, hdot0, zero_div]

/-- C10 witness: the zero and symmetry cases of the similarity theorem at
the empty first argument. -/
theorem text_similarity_properties_witness :
    calculate_text_similarity "" "x" = 0
    ∧ calculate_text_similarity "" "x" = calculate_text_similarity "x" "" :=
  ⟨(text_similarity_properties "" "x").2.2.2 (Or.inl rfl),
   (text_similarity_properties "" "x").1⟩

end PsyConsult

